import Mathlib

/-!
Shallow embedding of the RTSM MCP client core
(`src/tools/mcp_smoke_test.py`, `src/tools/mcp_phone_playability.py`).

Modelling conventions:
* JSON dict fields that code reads with `.get` become `Option` fields;
  `dict.get(k, default)` becomes `Option.getD`.
* The base64 `data` field of an image content part is modelled by its
  decoded byte list (`base64.b64decode`); an absent field is `none`.
* `MCPError` is raised with distinct message strings per site; each raise
  site becomes a distinct constructor of `MCPErrKind`.
* Wall-clock time is abstracted: the primary inbound stream is a list of
  already-read lines; exhausting it models the deadline elapsing
  (`Timed out ...`), an `eof` item models `readline()` returning `""`
  with the process gone (`MCP server exited unexpectedly`).
-/

namespace RTSM

/-- One content part of a tool result, as the Python code reads it:
`part.get("type")`, `part.get("text")`, `part.get("data")` (the latter
given here as its decoded bytes). -/
structure ContentPart where
  type : Option String
  text : Option String
  data : Option (List Nat)
deriving DecidableEq, Repr

/-- Model of `MCPClient.text_from_content` (mcp_smoke_test.py lines 175-178):
collects `part.get("text", "")` over parts whose type is `"text"`, keeps
the truthy (non-empty) ones, and joins them with `"\n"`. -/
def text_from_content (content : List ContentPart) : String :=
  let text_parts := (content.filter fun p => p.type = some "text").map
    fun p => p.text.getD ""
  String.intercalate "\n" (text_parts.filter fun t => t ≠ "")

/-- The spec's description of `textOf` taken literally ("concatenates all
`text` parts with newline separators, skipping non-text parts"): no
filtering of empty text strings. Used only to compare against the
source's `text_from_content`. -/
def textOf_spec (content : List ContentPart) : String :=
  String.intercalate "\n"
    ((content.filter fun p => p.type = some "text").map fun p => p.text.getD "")

/-- Error taxonomy. Each constructor corresponds to one `raise MCPError`
site of the source, except `unexpectedResponseId`, which is the spec's
§7 `UnexpectedResponseId` fault (no raise site in the source produces
it; it is needed to state claims about it). -/
inductive MCPErrKind where
  | stdinUnavailable
  | stdoutUnavailable
  | timeout
  | processExited
  | requestFailed (method : String)
  | toolInvocationError (text : String)
  | malformedPayload (pfx : String)
  | noImageContent
  | missingPayload
  | invalidImageFormat
  | unexpectedResponseId
deriving DecidableEq, Repr

/-- Bytes of `PNG_SIGNATURE = b"\x89PNG\r\n\x1a\n"` (mcp_phone_playability.py line 22). -/
def PNG_SIGNATURE : List Nat := [0x89, 0x50, 0x4E, 0x47, 0x0D, 0x0A, 0x1A, 0x0A]

/-- Big-endian 32-bit value from four bytes (one `I` of `struct.unpack(">II", ...)`). -/
def be32 (b0 b1 b2 b3 : Nat) : Nat := ((b0 * 256 + b1) * 256 + b2) * 256 + b3

/-- The `for part in content: if part.get("type") == "image": break` scan
of `parse_png_size_from_image_content`: first image part, if any. -/
def firstImagePart : List ContentPart → Option ContentPart
  | [] => none
  | p :: rest => if p.type = some "image" then some p else firstImagePart rest

/-- Model of `parse_png_size_from_image_content` (mcp_phone_playability.py lines
44-59). The `data` field is carried as decoded bytes, so the
`if not data_b64` falsiness test (absent field or empty base64 text)
becomes `none`/`some []`. `raw[16:24]` under `len(raw) >= 24` becomes
`getD` at indices 16..23. -/
def parse_png_size_from_image_content (content : List ContentPart) :
    Except MCPErrKind (Nat × Nat) :=
  match firstImagePart content with
  | none => .error .noImageContent
  | some image_part =>
    match image_part.data with
    | none => .error .missingPayload
    | some raw =>
      if raw = [] then .error .missingPayload
      else if raw.length < 24 ∨ raw.take 8 ≠ PNG_SIGNATURE then
        .error .invalidImageFormat
      else
        .ok (be32 (raw.getD 16 0) (raw.getD 17 0) (raw.getD 18 0) (raw.getD 19 0),
             be32 (raw.getD 20 0) (raw.getD 21 0) (raw.getD 22 0) (raw.getD 23 0))

/-- Model of `deque(maxlen=cap).append`: append on the right, evict on the left
when over capacity (mcp_smoke_test.py line 42 uses `maxlen=200`). -/
def dequeAppend (cap : Nat) (buf : List String) (x : String) : List String :=
  let b := buf ++ [x]
  if cap < b.length then b.drop (b.length - cap) else b

/-- Repeated `deque.append` over a whole sequence of lines, as the
stderr drain loop (`_drain_stderr`, lines 55-64) performs. -/
def dequeAppendAll (cap : Nat) (buf : List String) (lines : List String) : List String :=
  lines.foldl (dequeAppend cap) buf

/-- Model of `MCPClient.stderr_tail` (lines 195-197): joins the buffer snapshot. -/
def stderr_tail (buf : List String) : String := String.intercalate "\n" buf

/-- The interesting fields of a tool-call response's `result` dict:
`result.get("isError", False)` and `result.get("content", [])`. -/
structure ToolResultV where
  isError : Option Bool
  content : Option (List ContentPart)
deriving DecidableEq, Repr

/-- A decoded inbound JSON-RPC message, restricted to the fields the
client reads: `"id"`, `"error"` (payload abstracted to its text) and
`"result"`. -/
structure Message where
  id : Option Nat
  error : Option String
  result : Option ToolResultV
deriving DecidableEq, Repr

/-- One outbound JSON line produced by `MCPClient._send`; the constant
`"jsonrpc": "2.0"` member and the params payload are not read back
anywhere and are abstracted away. -/
structure OutMessage where
  id : Option Nat
  method : String
deriving DecidableEq, Repr

/-- One line read from the primary (stdout) stream, classified as the
`_read_message` loop does: end-of-stream (`readline() == ""`), a blank
line (`line.strip()` falsy), a line `json.loads` rejects, or a decoded
message. -/
inductive RawLine where
  | eof
  | blank
  | nonJSON (s : String)
  | jsonMsg (m : Message)
deriving DecidableEq, Repr

/-- Model of `MCPClient._read_message` (lines 72-104) over a pre-read line list:
blank and non-JSON lines are skipped, `eof` raises the process-exited
error, stream exhaustion models the deadline elapsing. Returns the
delivered message together with the unconsumed remainder. -/
def read_message : List RawLine → Except MCPErrKind (Message × List RawLine)
  | [] => .error .timeout
  | .eof :: _ => .error .processExited
  | .blank :: rest => read_message rest
  | .nonJSON _ :: rest => read_message rest
  | .jsonMsg m :: rest => .ok (m, rest)

/-- The read loop of `MCPClient.request` (lines 118-128) fused with
`_read_message`: keep reading until a message with `msg.get("id") ==
request_id` arrives; any other message is skipped and the loop
continues. -/
def request_loop (request_id : Nat) : List RawLine → Except MCPErrKind Message
  | [] => .error .timeout
  | .eof :: _ => .error .processExited
  | .blank :: rest => request_loop request_id rest
  | .nonJSON _ :: rest => request_loop request_id rest
  | .jsonMsg m :: rest =>
    if m.id = some request_id then .ok m else request_loop request_id rest

/-- Client-side session state: `_next_id` (line 41), the log of lines
written to the child's stdin, the not-yet-consumed primary stream, and
the stderr deque contents. -/
structure MCPClientState where
  next_id : Nat
  written : List OutMessage
  inbox : List RawLine
  stderr_lines : List String
deriving DecidableEq, Repr

/-- State right after `MCPClient.__init__`: `_next_id = 1`, empty buffers. -/
def initClient (inbox : List RawLine) : MCPClientState :=
  { next_id := 1, written := [], inbox := inbox, stderr_lines := [] }

/-- The send half of `MCPClient.request` (lines 106-116): allocate
`request_id = self._next_id`, increment the counter, write the request
line with that id. Returns the allocated id. -/
def send_request (c : MCPClientState) (method : String) : Nat × MCPClientState :=
  (c.next_id,
   { c with next_id := c.next_id + 1,
            written := c.written ++ [⟨some c.next_id, method⟩] })

/-- Model of `MCPClient.request` in full (lines 106-128): send with a fresh id,
then run the read loop against the supplied stream with that id. -/
def request (c : MCPClientState) (method : String) (stream : List RawLine) :
    Except MCPErrKind Message × MCPClientState :=
  let (request_id, c') := send_request c method
  (request_loop request_id stream, c')

/-- Model of `MCPClient.notify` (lines 130-137): write one message with no `"id"`
member; nothing else of the state is touched and nothing is read. -/
def notify (c : MCPClientState) (method : String) : MCPClientState :=
  { c with written := c.written ++ [⟨none, method⟩] }

/-- The `notify` operation iterated over a list of methods. -/
def notifyAll (c : MCPClientState) : List String → MCPClientState
  | [] => c
  | m :: ms => notifyAll (notify c m) ms

/-- The ids allocated by a sequence of `request` calls (only the send
half matters for id assignment). -/
def request_ids (c : MCPClientState) : List String → List Nat
  | [] => []
  | m :: ms =>
    let (i, c') := send_request c m
    i :: request_ids c' ms

/-- The post-`request` handling of `MCPClient.call_tool` (lines 160-173):
transport-level `"error"` member first, then the remote `isError` flag
(raising `ToolInvocationError` text), else the content list. -/
def call_tool_outcome (name : String) (response : Message) :
    Except MCPErrKind (List ContentPart) :=
  if response.error.isSome then .error (.requestFailed ("tools/call " ++ name))
  else
    let result := response.result.getD ⟨none, none⟩
    if result.isError.getD false then
      .error (.toolInvocationError (text_from_content (result.content.getD [])))
    else
      .ok (result.content.getD [])

/-- Child process as `stop` observes it through `poll()`. -/
inductive ProcState where
  | running
  | exited (code : Int)
deriving DecidableEq, Repr

/-- Process-control actions `stop` can perform. -/
inductive StopAction where
  | terminate
  | wait
  | kill
deriving DecidableEq, Repr

/-- Model of `MCPClient.stop` (lines 187-193): if `poll()` is `None` (still
running), terminate, wait up to the 5s grace period, and kill on
`TimeoutExpired`; otherwise do nothing. `graceful` abstracts whether the
wait returns within the grace period; `-15`/`-9` are the POSIX
returncodes after SIGTERM/SIGKILL. Returns the resulting process state
and the actions performed. -/
def stop (graceful : Bool) : ProcState → ProcState × List StopAction
  | .running =>
    if graceful then (.exited (-15), [.terminate, .wait])
    else (.exited (-9), [.terminate, .wait, .kill])
  | .exited c => (.exited c, [])


/-! ## Helper lemmas -/

/-- If the buffer respects the capacity, one append keeps it so. -/
theorem dequeAppend_length_le_of_le (cap : Nat) (buf : List String) (x : String)
    (h : buf.length ≤ cap) : (dequeAppend cap buf x).length ≤ cap := by
  simp only [dequeAppend]
  split
  · simp only [List.length_drop]
    omega
  · rename_i hc
    simp only [List.length_append, List.length_cons, List.length_nil] at hc ⊢
    omega

/-- A deque append is a right-append followed by dropping the overflow
from the left. -/
theorem dequeAppend_eq_drop (cap : Nat) (buf : List String) (x : String) :
    dequeAppend cap buf x = (buf ++ [x]).drop (buf.length + 1 - cap) := by
  simp only [dequeAppend]
  split
  · congr 1
    simp only [List.length_append, List.length_cons, List.length_nil]
  · rename_i hc
    simp only [List.length_append, List.length_cons, List.length_nil] at hc
    rw [show buf.length + 1 - cap = 0 by omega, List.drop_zero]

/-- Folding deque appends over a line sequence retains exactly the last
`cap` entries of the concatenation, in order. -/
theorem dequeAppendAll_eq_drop (cap : Nat) :
    ∀ (lines buf : List String), buf.length ≤ cap →
      dequeAppendAll cap buf lines =
        (buf ++ lines).drop (buf.length + lines.length - cap)
  | [], buf, h => by
    simp [dequeAppendAll, Nat.sub_eq_zero_of_le h]
  | x :: ls, buf, h => by
    have hstep : (dequeAppend cap buf x).length ≤ cap :=
      dequeAppend_length_le_of_le cap buf x h
    have ih := dequeAppendAll_eq_drop cap ls (dequeAppend cap buf x) hstep
    have hfold : dequeAppendAll cap buf (x :: ls) =
        dequeAppendAll cap (dequeAppend cap buf x) ls := by
      simp [dequeAppendAll]
    rw [hfold, ih, dequeAppend_eq_drop]
    have hdle : buf.length + 1 - cap ≤ (buf ++ [x]).length := by
      simp only [List.length_append, List.length_cons, List.length_nil]
      omega
    rw [← List.drop_append_of_le_length hdle, List.drop_drop]
    have hlen : ((buf ++ [x]).drop (buf.length + 1 - cap)).length =
        buf.length + 1 - (buf.length + 1 - cap) := by
      simp [List.length_drop]
    rw [hlen]
    have hlist : (buf ++ [x]) ++ ls = buf ++ x :: ls := by
      simp
    rw [hlist]
    congr 1
    simp only [List.length_cons]
    omega

/-- A scan that finds no image part returns `none`. -/
theorem firstImagePart_eq_none (content : List ContentPart)
    (h : ∀ p ∈ content, p.type ≠ some "image") : firstImagePart content = none := by
  induction content with
  | nil => rfl
  | cons p rest ih =>
    have hp : p.type ≠ some "image" := h p (List.mem_cons_self p rest)
    rw [firstImagePart, if_neg (by simpa using hp)]
    exact ih fun q hq => h q (List.mem_cons_of_mem p hq)

/-- When the read loop returns a message, that message carries exactly
the id it was looking for. -/
theorem request_loop_id_of_ok (rid : Nat) :
    ∀ (stream : List RawLine) (msg : Message),
      request_loop rid stream = .ok msg → msg.id = some rid
  | [], msg, h => by simp [request_loop] at h
  | .eof :: _, msg, h => by simp [request_loop] at h
  | .blank :: rest, msg, h => request_loop_id_of_ok rid rest msg h
  | .nonJSON s :: rest, msg, h => request_loop_id_of_ok rid rest msg h
  | .jsonMsg m :: rest, msg, h => by
    rw [request_loop] at h
    by_cases hid : m.id = some rid
    · rw [if_pos hid] at h
      cases h
      exact hid
    · rw [if_neg hid] at h
      exact request_loop_id_of_ok rid rest msg h

/-- The ids handed out by consecutive requests form a contiguous run
starting at the current counter. -/
theorem request_ids_eq_range' :
    ∀ (ms : List String) (c : MCPClientState),
      request_ids c ms = List.range' c.next_id ms.length
  | [], c => rfl
  | m :: ms, c => by
    simp only [request_ids, send_request]
    rw [request_ids_eq_range' ms, List.length_cons,
      List.range'_succ c.next_id ms.length 1]

/-- Iterated notification only appends id-less lines to the write log. -/
theorem notifyAll_state :
    ∀ (ms : List String) (c : MCPClientState),
      notifyAll c ms =
        { c with written := c.written ++ ms.map fun method => ⟨none, method⟩ }
  | [], c => by simp [notifyAll]
  | m :: ms, c => by
    have hn : notifyAll c (m :: ms) = notifyAll (notify c m) ms := rfl
    rw [hn, notifyAll_state ms (notify c m)]
    cases c
    simp [notify]

/-! ## Claim theorems -/

/-- C1 (counterexample): with request id 2 in flight and a stray response
bearing id 1 arriving first, `MCPClient.request`'s read loop silently
skips the stray message and returns the later matching one; it does not
fail with the spec's `UnexpectedResponseId`. -/
theorem stray_response_skipped_not_error :
    request_loop 2 [.jsonMsg ⟨some 1, none, none⟩, .jsonMsg ⟨some 2, none, none⟩] =
      .ok ⟨some 2, none, none⟩
    ∧ request_loop 2 [.jsonMsg ⟨some 1, none, none⟩, .jsonMsg ⟨some 2, none, none⟩] ≠
      .error .unexpectedResponseId := by
  constructor
  · rfl
  · intro h
    have hok : request_loop 2
        [.jsonMsg ⟨some 1, none, none⟩, .jsonMsg ⟨some 2, none, none⟩] =
        Except.ok ⟨some 2, none, none⟩ := rfl
    rw [hok] at h
    exact Except.noConfusion h

/-- C1 (amended): a line decoding to a message whose id differs from the
in-flight request id is silently skipped by `MCPClient.request`'s read
loop, which continues with the remaining stream (within the same
deadline); no `UnexpectedResponseId` error is raised. -/
theorem request_loop_skips_nonmatching :
    ∀ (request_id : Nat) (m : Message) (rest : List RawLine),
      m.id ≠ some request_id →
      request_loop request_id (.jsonMsg m :: rest) = request_loop request_id rest := by
  intro request_id m rest h
  rw [request_loop, if_neg h]

/-- Witness for the amended C1 at a concrete stray message. -/
theorem request_loop_skips_nonmatching_witness :
    (Message.id ⟨some 1, none, none⟩ ≠ some 2) ∧
    request_loop 2 [.jsonMsg ⟨some 1, none, none⟩] = request_loop 2 [] :=
  ⟨by decide, request_loop_skips_nonmatching 2 ⟨some 1, none, none⟩ [] (by decide)⟩

/-- C2: over any sequence of requests the assigned ids are strictly
increasing and never reused (`_next_id` simple increment), and a call
that returns a response returns one whose id equals the id that was sent
(which is recorded in the written request line). -/
theorem request_ids_monotone_and_matched :
    (∀ (c : MCPClientState) (ms : List String),
        List.Pairwise (· < ·) (request_ids c ms) ∧ (request_ids c ms).Nodup)
    ∧ (∀ (c : MCPClientState) (method : String) (stream : List RawLine) (msg : Message),
        (request c method stream).1 = .ok msg →
          msg.id = some c.next_id ∧
          (request c method stream).2.written =
            c.written ++ [⟨some c.next_id, method⟩]) := by
  constructor
  · intro c ms
    rw [request_ids_eq_range']
    refine ⟨List.pairwise_lt_range' _ _, ?_⟩
    exact (List.pairwise_lt_range' _ _).imp Nat.ne_of_lt
  · intro c method stream msg h
    exact ⟨request_loop_id_of_ok c.next_id stream msg h, rfl⟩

/-- Witness for C2: three requests from a fresh client, and one matched
call. -/
theorem request_ids_monotone_and_matched_witness :
    (List.Pairwise (· < ·)
        (request_ids (initClient []) ["initialize", "tools/list", "tools/call"]) ∧
      (request_ids (initClient []) ["initialize", "tools/list", "tools/call"]).Nodup)
    ∧ ((⟨some 1, none, none⟩ : Message).id = some (initClient []).next_id ∧
        (request (initClient []) "tools/list" [.jsonMsg ⟨some 1, none, none⟩]).2.written =
          (initClient []).written ++ [⟨some (initClient []).next_id, "tools/list"⟩]) :=
  ⟨request_ids_monotone_and_matched.1 (initClient []) ["initialize", "tools/list", "tools/call"],
   request_ids_monotone_and_matched.2 (initClient []) "tools/list"
     [.jsonMsg ⟨some 1, none, none⟩] ⟨some 1, none, none⟩ rfl⟩

/-- C3: `parse_png_size_from_image_content` fails with the
no-image-content error when no part is an image; fails with the
missing-payload error when the first image part's data is absent or
empty; fails with the invalid-image-format error when the decoded bytes
do not start with the 8-byte PNG signature; and on a payload of the
signature, 8 further header bytes, then big-endian 640 and 360 at byte
offsets 16..24, returns `(640, 360)`. -/
theorem parse_png_size_spec :
    (∀ (content : List ContentPart),
        (∀ p ∈ content, p.type ≠ some "image") →
        parse_png_size_from_image_content content = .error .noImageContent)
    ∧ (∀ (content : List ContentPart) (part : ContentPart),
        firstImagePart content = some part →
        (part.data = none ∨ part.data = some []) →
        parse_png_size_from_image_content content = .error .missingPayload)
    ∧ (∀ (content : List ContentPart) (part : ContentPart) (raw : List Nat),
        firstImagePart content = some part → part.data = some raw →
        raw ≠ [] → raw.take 8 ≠ PNG_SIGNATURE →
        parse_png_size_from_image_content content = .error .invalidImageFormat)
    ∧ (∀ (content : List ContentPart) (part : ContentPart)
        (b0 b1 b2 b3 b4 b5 b6 b7 : Nat) (rest : List Nat),
        firstImagePart content = some part →
        part.data = some (PNG_SIGNATURE ++ [b0, b1, b2, b3, b4, b5, b6, b7] ++
          [0, 0, 2, 128, 0, 0, 1, 104] ++ rest) →
        parse_png_size_from_image_content content = .ok (640, 360)) := by
  refine ⟨?_, ?_, ?_, ?_⟩
  · intro content h
    rw [parse_png_size_from_image_content, firstImagePart_eq_none content h]
  · intro content part h1 h2
    rcases h2 with h2 | h2 <;> simp [parse_png_size_from_image_content, h1, h2]
  · intro content part raw h1 h2 hne hsig
    simp only [parse_png_size_from_image_content, h1, h2]
    rw [if_neg hne, if_pos (Or.inr hsig)]
  · intro content part b0 b1 b2 b3 b4 b5 b6 b7 rest h1 h2
    have hassoc : PNG_SIGNATURE ++ [b0, b1, b2, b3, b4, b5, b6, b7] ++
        [0, 0, 2, 128, 0, 0, 1, 104] ++ rest =
        PNG_SIGNATURE ++ ([b0, b1, b2, b3, b4, b5, b6, b7] ++
          ([0, 0, 2, 128, 0, 0, 1, 104] ++ rest)) := by
      simp [List.append_assoc]
    have htake : (PNG_SIGNATURE ++ [b0, b1, b2, b3, b4, b5, b6, b7] ++
        [0, 0, 2, 128, 0, 0, 1, 104] ++ rest).take 8 = PNG_SIGNATURE := by
      rw [hassoc]
      exact List.take_left' (by rfl)
    have hcond : ¬((PNG_SIGNATURE ++ [b0, b1, b2, b3, b4, b5, b6, b7] ++
        [0, 0, 2, 128, 0, 0, 1, 104] ++ rest).length < 24 ∨
        (PNG_SIGNATURE ++ [b0, b1, b2, b3, b4, b5, b6, b7] ++
          [0, 0, 2, 128, 0, 0, 1, 104] ++ rest).take 8 ≠ PNG_SIGNATURE) := by
      push_neg
      constructor
      · simp [PNG_SIGNATURE]
      · exact htake
    have hnil : PNG_SIGNATURE ++ [b0, b1, b2, b3, b4, b5, b6, b7] ++
        [0, 0, 2, 128, 0, 0, 1, 104] ++ rest ≠ [] := by
      simp [PNG_SIGNATURE]
    simp only [parse_png_size_from_image_content, h1, h2]
    rw [if_neg hnil, if_neg hcond]
    simp [PNG_SIGNATURE, be32]

/-- Witness for C3 instantiating each conjunct at concrete content. -/
theorem parse_png_size_spec_witness :
    parse_png_size_from_image_content [⟨some "text", some "hi", none⟩] =
      .error .noImageContent
    ∧ parse_png_size_from_image_content [⟨some "image", none, none⟩] =
      .error .missingPayload
    ∧ parse_png_size_from_image_content [⟨some "image", none, some [1, 2, 3]⟩] =
      .error .invalidImageFormat
    ∧ parse_png_size_from_image_content
        [⟨some "image", none, some (PNG_SIGNATURE ++ [0, 0, 0, 13, 73, 72, 68, 82] ++
          [0, 0, 2, 128, 0, 0, 1, 104] ++ [])⟩] = .ok (640, 360) := by
  obtain ⟨h1, h2, h3, h4⟩ := parse_png_size_spec
  exact ⟨h1 [⟨some "text", some "hi", none⟩] (by decide),
    h2 [⟨some "image", none, none⟩] ⟨some "image", none, none⟩ (by decide) (Or.inl rfl),
    h3 [⟨some "image", none, some [1, 2, 3]⟩] ⟨some "image", none, some [1, 2, 3]⟩
      [1, 2, 3] (by decide) rfl (by decide) (by decide),
    h4 [⟨some "image", none, some (PNG_SIGNATURE ++ [0, 0, 0, 13, 73, 72, 68, 82] ++
        [0, 0, 2, 128, 0, 0, 1, 104] ++ [])⟩]
      ⟨some "image", none, some (PNG_SIGNATURE ++ [0, 0, 0, 13, 73, 72, 68, 82] ++
        [0, 0, 2, 128, 0, 0, 1, 104] ++ [])⟩
      0 0 0 13 73 72 68 82 [] (by decide) rfl⟩

/-- C4: the diagnostic deque never holds more than its capacity of 200
lines, and after appending 200 + k lines to a fresh buffer the surviving
contents are exactly the last 200 lines in their original order (oldest
evicted first). -/
theorem stderr_buffer_bounded_fifo :
    (∀ (buf lines : List String), buf.length ≤ 200 →
        (dequeAppendAll 200 buf lines).length ≤ 200)
    ∧ (∀ (k : Nat) (lines : List String), lines.length = 200 + k →
        dequeAppendAll 200 [] lines = lines.drop k) := by
  constructor
  · intro buf lines h
    rw [dequeAppendAll_eq_drop 200 lines buf h]
    simp only [List.length_drop, List.length_append]
    omega
  · intro k lines h
    rw [dequeAppendAll_eq_drop 200 lines [] (by simp)]
    simp only [List.nil_append, List.length_nil, Nat.zero_add]
    rw [h, show 200 + k - 200 = k by omega]

/-- Witness for C4 with a 201-line burst over the 200-capacity buffer. -/
theorem stderr_buffer_bounded_fifo_witness :
    (dequeAppendAll 200 [] ["boot"]).length ≤ 200 ∧
    dequeAppendAll 200 [] (List.replicate 201 "line") =
      (List.replicate 201 "line").drop 1 :=
  ⟨stderr_buffer_bounded_fifo.1 [] ["boot"] (by simp),
   stderr_buffer_bounded_fifo.2 1 (List.replicate 201 "line")
     (by rw [List.length_replicate])⟩

/-- C5 (counterexample): `text_from_content` drops a text part whose
text is the empty string (Python truthiness of `if t`), so it does not
concatenate all text parts with newline separators: on
`[text "", text "a"]` it returns `"a"`, while literal
newline-concatenation of all text parts gives `"\na"`. -/
theorem text_from_content_drops_empty_text :
    text_from_content [⟨some "text", some "", none⟩, ⟨some "text", some "a", none⟩] = "a"
    ∧ textOf_spec [⟨some "text", some "", none⟩, ⟨some "text", some "a", none⟩] = "\na"
    ∧ text_from_content [⟨some "text", some "", none⟩, ⟨some "text", some "a", none⟩] ≠
        textOf_spec [⟨some "text", some "", none⟩, ⟨some "text", some "a", none⟩] := by
  refine ⟨rfl, rfl, ?_⟩
  decide

/-- C5 (amended): `text_from_content` concatenates the non-empty text
parts with newline separators, skipping non-text parts and text parts
whose text is absent or empty; when every text part carries non-empty
text this coincides with newline-joining all text parts; the empty list
yields the empty string; and on `[text "a", image, text "b"]` it returns
`"a\nb"`. -/
theorem text_from_content_amended :
    (∀ (content : List ContentPart),
        (∀ p ∈ content, p.type = some "text" → p.text.getD "" ≠ "") →
        text_from_content content = textOf_spec content)
    ∧ text_from_content [] = ""
    ∧ text_from_content
        [⟨some "text", some "a", none⟩, ⟨some "image", none, some [0]⟩,
         ⟨some "text", some "b", none⟩] = "a" ++ "\n" ++ "b" := by
  refine ⟨?_, rfl, by decide⟩
  intro content h
  simp only [text_from_content, textOf_spec]
  congr 1
  apply List.filter_eq_self.mpr
  intro t ht
  obtain ⟨p, hp, rfl⟩ := List.mem_map.mp ht
  obtain ⟨hpc, hq⟩ := List.mem_filter.mp hp
  exact decide_eq_true (h p hpc (of_decide_eq_true hq))

/-- Witness for the amended C5 on content whose text parts are all
non-empty. -/
theorem text_from_content_amended_witness :
    text_from_content [⟨some "text", some "a", none⟩] =
      textOf_spec [⟨some "text", some "a", none⟩] :=
  text_from_content_amended.1 [⟨some "text", some "a", none⟩] (by decide)

/-- C6: when the transport-level response carries no error member but
the result's `isError` flag is true, `call_tool` fails with the
tool-invocation error carrying the text extracted from the result's
content parts. -/
theorem call_tool_isError_flag :
    ∀ (name : String) (response : Message) (r : ToolResultV),
      response.error = none → response.result = some r → r.isError = some true →
      call_tool_outcome name response =
        .error (.toolInvocationError (text_from_content (r.content.getD []))) := by
  intro name response r herr hres hflag
  simp [call_tool_outcome, herr, hres, hflag]

/-- Witness for C6 at a concrete error-flagged tool result. -/
theorem call_tool_isError_flag_witness :
    call_tool_outcome "screenshot"
        ⟨some 3, none, some ⟨some true, some [⟨some "text", some "boom", none⟩]⟩⟩ =
      .error (.toolInvocationError (text_from_content
        ((ToolResultV.content ⟨some true, some [⟨some "text", some "boom", none⟩]⟩).getD []))) :=
  call_tool_isError_flag "screenshot"
    ⟨some 3, none, some ⟨some true, some [⟨some "text", some "boom", none⟩]⟩⟩
    ⟨some true, some [⟨some "text", some "boom", none⟩]⟩ rfl rfl rfl

/-- C7: blank lines and lines that are not valid JSON never escape the
read loop as errors and are never delivered as the answer to a pending
request: any such noise prefix is discarded and reading continues with
the rest of the stream, both in `_read_message` and in `request`'s
matching loop. -/
theorem read_loop_discards_noise :
    ∀ (noise rest : List RawLine),
      (∀ l ∈ noise, l = .blank ∨ ∃ s, l = .nonJSON s) →
      read_message (noise ++ rest) = read_message rest ∧
      ∀ request_id, request_loop request_id (noise ++ rest) =
        request_loop request_id rest := by
  intro noise rest h
  induction noise with
  | nil => exact ⟨rfl, fun _ => rfl⟩
  | cons l noise ih =>
    have hl := h l (List.mem_cons_self l noise)
    have ihr := ih fun q hq => h q (List.mem_cons_of_mem l hq)
    rcases hl with hb | ⟨s, hs⟩
    · subst hb
      simpa [read_message, request_loop] using ihr
    · subst hs
      simpa [read_message, request_loop] using ihr

/-- Witness for C7: one blank line and one non-JSON line ahead of a real
response. -/
theorem read_loop_discards_noise_witness :
    (read_message ([.blank, .nonJSON "oops"] ++ [.jsonMsg ⟨some 1, none, none⟩]) =
      read_message [.jsonMsg ⟨some 1, none, none⟩]) ∧
    request_loop 1 ([.blank, .nonJSON "oops"] ++ [.jsonMsg ⟨some 1, none, none⟩]) =
      request_loop 1 [.jsonMsg ⟨some 1, none, none⟩] := by
  have hnoise : ∀ l ∈ ([.blank, .nonJSON "oops"] : List RawLine),
      l = .blank ∨ ∃ s, l = .nonJSON s := by
    intro l hl
    rcases List.mem_cons.mp hl with h | hl
    · exact Or.inl h
    · rcases List.mem_cons.mp hl with h | hl
      · exact Or.inr ⟨"oops", h⟩
      · cases hl
  have h := read_loop_discards_noise [.blank, .nonJSON "oops"]
    [.jsonMsg ⟨some 1, none, none⟩] hnoise
  exact ⟨h.1, h.2 1⟩

/-- C8: `stop` is idempotent: a second `stop` on the state left by a
first `stop` (or on a process that already exited) changes nothing and
performs no process-control action at all. -/
theorem stop_idempotent :
    (∀ (g1 g2 : Bool) (p : ProcState),
        stop g2 (stop g1 p).1 = ((stop g1 p).1, ([] : List StopAction)))
    ∧ (∀ (g : Bool) (code : Int), stop g (.exited code) = (.exited code, [])) := by
  constructor
  · intro g1 g2 p
    cases p with
    | running => cases g1 <;> rfl
    | exited code => rfl
  · intro g code
    rfl

/-- C9: sending any sequence of notifications appends exactly that many
id-less messages to the command stream and changes nothing else: the
request-id counter, the unread primary stream (nothing is read, so
nothing blocks) and the stderr buffer are untouched, and no pending
correlation is created (no id is allocated). -/
theorem notify_frame :
    ∀ (c : MCPClientState) (methods : List String),
      (notifyAll c methods).next_id = c.next_id ∧
      (notifyAll c methods).inbox = c.inbox ∧
      (notifyAll c methods).stderr_lines = c.stderr_lines ∧
      (notifyAll c methods).written =
        c.written ++ methods.map (fun method => ⟨none, method⟩) ∧
      (notifyAll c methods).written.length = c.written.length + methods.length := by
  intro c methods
  rw [notifyAll_state]
  refine ⟨rfl, rfl, rfl, rfl, ?_⟩
  simp

/-- C10: a decoded image payload of fewer than 24 bytes - even one that
begins with the valid 8-byte PNG signature - makes
`parse_png_size_from_image_content` fail with the invalid-image-format
error before the width/height bytes at offsets 16..24 are ever read. -/
theorem parse_png_size_short_payload :
    ∀ (content : List ContentPart) (part : ContentPart) (raw : List Nat),
      firstImagePart content = some part → part.data = some raw →
      raw ≠ [] → raw.length < 24 →
      parse_png_size_from_image_content content = .error .invalidImageFormat := by
  intro content part raw h1 h2 hne hlen
  simp only [parse_png_size_from_image_content, h1, h2]
  rw [if_neg hne, if_pos (Or.inl hlen)]

/-- Witness for C10: the bare 8-byte PNG signature as whole payload. -/
theorem parse_png_size_short_payload_witness :
    PNG_SIGNATURE.take 8 = PNG_SIGNATURE ∧ PNG_SIGNATURE.length < 24 ∧
    parse_png_size_from_image_content [⟨some "image", none, some PNG_SIGNATURE⟩] =
      .error .invalidImageFormat :=
  ⟨by decide, by decide,
   parse_png_size_short_payload [⟨some "image", none, some PNG_SIGNATURE⟩]
     ⟨some "image", none, some PNG_SIGNATURE⟩ PNG_SIGNATURE
     (by decide) rfl (by decide) (by decide)⟩

end RTSM
